import Mathlib

/-!
Verification of the watts-plugin-tester core (src/watts-plugin-tester.go,
second generation of the tool) against its natural-language specification.

The Go program is shallowly embedded: JSON documents become the inductive
type `Json`; Go maps `map[string]*json.RawMessage` become association lists
with first-occurrence lookup; `encoding/json` marshaling becomes
`marshalBytes` (compact output, object keys sorted, Go's HTML-escaping of
string contents, bytes as `Nat`); the third-party `base64url.Encode` becomes
`b64Enc` (URL-safe alphabet, padding stripped) and `mergo.Merge(dst, src)`
becomes `mergoMerge` (keys present in `dst` are kept, missing keys are
filled from `src`, values are taken wholesale).  Process-level effects
(reading the override file, spawning the plugin) are boundary inputs of the
model; `os.Exit` / Go panics become the `ExitStatus` outcome type.
-/

/-- JSON values, the universal data currency of the tool.  Go decodes
numbers to `float64`; numeric semantics are irrelevant to every property
proved here, so numbers are carried as integers. -/
inductive Json where
  | null : Json
  | bool : Bool → Json
  | num : Int → Json
  | str : String → Json
  | arr : List Json → Json
  | obj : List (String × Json) → Json

/-- A plugin-input document: `map[string]*json.RawMessage` in the Go source,
modelled as an association list whose lookup takes the first occurrence. -/
abbrev PIn := List (String × Json)

/-- Go map assignment `m[k] = v` on an association list: the entry for `k`
is replaced (any old entry removed), all other entries are kept. -/
def assocSet {β : Type} (p : List (String × β)) (k : String) (v : β) : List (String × β) :=
  (k, v) :: p.filter (fun kv => !(kv.1 == k))

/-- Go map assignment on a plugin-input document. -/
def setKey (p : PIn) (k : String) (v : Json) : PIn := assocSet p k v

/-- Lowercase-hex digit byte, as used by Go's `\u00xx` string escapes. -/
def hexDig (d : Nat) : Nat := if d < 10 then 48 + d else 87 + d

/-- The four lowercase-hex digit bytes of a code point below 0x10000. -/
def hex4 (n : Nat) : List Nat :=
  [hexDig (n / 4096 % 16), hexDig (n / 256 % 16), hexDig (n / 16 % 16), hexDig (n % 16)]

/-- UTF-8 encoding of a Unicode code point, as emitted by Go for characters
that need no JSON escape. -/
def utf8Cp (n : Nat) : List Nat :=
  if n < 128 then [n]
  else if n < 2048 then [192 + n / 64, 128 + n % 64]
  else if n < 65536 then [224 + n / 4096, 128 + n / 64 % 64, 128 + n % 64]
  else [240 + n / 262144, 128 + n / 4096 % 64, 128 + n / 64 % 64, 128 + n % 64]

/-- Go `encoding/json` encoding of one character inside a JSON string
literal (the default HTML-escaping encoder): `"` `\` `\n` `\r` `\t` get
two-byte escapes, other control characters and `<` `>` `&` and
U+2028/U+2029 get `\u`-escapes, everything else is emitted as raw UTF-8. -/
def encCp (n : Nat) : List Nat :=
  if n = 34 then [92, 34]
  else if n = 92 then [92, 92]
  else if n = 10 then [92, 110]
  else if n = 13 then [92, 114]
  else if n = 9 then [92, 116]
  else if n < 32 ∨ n = 60 ∨ n = 62 ∨ n = 38 ∨ n = 8232 ∨ n = 8233 then 92 :: 117 :: hex4 n
  else utf8Cp n

/-- The escaped body of a JSON string literal for `s`. -/
def strBody (s : String) : List Nat := (s.data.map Char.toNat).flatMap encCp

/-- A complete JSON string literal: quote, escaped body, quote. -/
def strBytes (s : String) : List Nat := 34 :: strBody s ++ [34]

/-- Lexicographic comparison of character lists by code point. -/
def charListLt : List Char → List Char → Bool
  | [], [] => false
  | [], _ :: _ => true
  | _ :: _, [] => false
  | c :: cs, d :: ds =>
      if c.toNat < d.toNat then true
      else if d.toNat < c.toNat then false
      else charListLt cs ds

/-- Go string `<` (byte-wise lexicographic comparison; on UTF-8 data the
byte order and the code-point order agree). -/
def strLt (a b : String) : Bool := charListLt a.data b.data

/-- Insertion of a rendered object field into a key-sorted list of rendered
fields (Go sorts map keys lexicographically before marshaling). -/
def insertField : (String × List Nat) → List (String × List Nat) → List (String × List Nat)
  | a, [] => [a]
  | (ka, va), (kb, vb) :: rest =>
      if strLt ka kb then (ka, va) :: (kb, vb) :: rest
      else (kb, vb) :: insertField (ka, va) rest

/-- Key-sort of rendered object fields. -/
def sortFields : List (String × List Nat) → List (String × List Nat)
  | [] => []
  | a :: rest => insertField a (sortFields rest)

/-- Comma-separated concatenation (byte 44 is the comma). -/
def sepJoin : List (List Nat) → List Nat
  | [] => []
  | [x] => x
  | x :: rest => x ++ 44 :: sepJoin rest

/-- Render rendered fields as `"key":value` chunks (byte 58 is the colon). -/
def fieldChunk (f : String × List Nat) : List Nat := strBytes f.1 ++ 58 :: f.2

mutual
/-- Compact Go `json.Marshal` of a JSON value: object keys sorted,
HTML-escaping string encoder, no insignificant whitespace. -/
def marshalBytes : Json → List Nat
  | .null => [110, 117, 108, 108]
  | .bool true => [116, 114, 117, 101]
  | .bool false => [102, 97, 108, 115, 101]
  | .num i => (toString i).data.map Char.toNat
  | .str s => strBytes s
  | .arr xs => 91 :: sepJoin (renderElems xs) ++ [93]
  | .obj kvs => 123 :: sepJoin ((sortFields (renderFields kvs)).map fieldChunk) ++ [125]
termination_by structural j => j

/-- Marshal every field value of an object, keeping the keys. -/
def renderFields : List (String × Json) → List (String × List Nat)
  | [] => []
  | (k, v) :: rest => (k, marshalBytes v) :: renderFields rest
termination_by structural l => l

/-- Marshal every element of an array. -/
def renderElems : List Json → List (List Nat)
  | [] => []
  | x :: rest => marshalBytes x :: renderElems rest
termination_by structural l => l
end

/-- `bytes.Replace(j, "/", "\/", -1)`: every `/` byte (47) becomes the two
bytes `\` `/` (92, 47). -/
def escapeSlash (bs : List Nat) : List Nat :=
  bs.flatMap (fun b => if b = 47 then [92, 47] else [b])

/-- The URL-safe base64 alphabet (`A..Z a..z 0..9 - _`), as produced by
`base64url.Encode` (standard encoding with `+` and `/` replaced by `-` and
`_`). -/
def b64Chars : List Char :=
  ['A','B','C','D','E','F','G','H','I','J','K','L','M','N','O','P','Q','R','S','T',
   'U','V','W','X','Y','Z','a','b','c','d','e','f','g','h','i','j','k','l','m','n',
   'o','p','q','r','s','t','u','v','w','x','y','z','0','1','2','3','4','5','6','7',
   '8','9','-','_']

/-- The base64url digit for a 6-bit group. -/
def b64Alpha (i : Nat) : Char := b64Chars.getD i 'A'

/-- `base64url.Encode`: base64 over the URL-safe alphabet with the padding
`=` characters stripped. -/
def b64Enc : List Nat → List Char
  | b1 :: b2 :: b3 :: rest =>
      b64Alpha (b1 / 4) :: b64Alpha ((b1 % 4) * 16 + b2 / 16) ::
      b64Alpha ((b2 % 16) * 4 + b3 / 64) :: b64Alpha (b3 % 64) :: b64Enc rest
  | [b1, b2] =>
      [b64Alpha (b1 / 4), b64Alpha ((b1 % 4) * 16 + b2 / 16), b64Alpha ((b2 % 16) * 4)]
  | [b1] => [b64Alpha (b1 / 4), b64Alpha ((b1 % 4) * 16)]
  | [] => []

/-- The identifier-derivation pipeline of `generateUserID`, applied to the
fields of the decoded `user_info` object: build the reduced two-field map
(`iss` and `sub` looked up, a missing field marshals as `null` like Go's
nil `*json.RawMessage`), marshal it compactly with sorted keys, escape
every `/`, base64url-encode. -/
def genUserIdStr (userInfoFields : PIn) : String :=
  String.mk (b64Enc (escapeSlash (marshalBytes (Json.obj
    [("iss", (List.lookup "iss" userInfoFields).getD Json.null),
     ("sub", (List.lookup "sub" userInfoFields).getD Json.null)]))))

/-- `generateUserID` as a function of the issuer and subject strings. -/
def deriveUserId (iss sub : String) : String :=
  genUserIdStr [("iss", Json.str iss), ("sub", Json.str sub)]

/-- The `govalid` combinators used by the tool, as a rule tree. -/
inductive Validator where
  | vString : Validator
  | vStringIs : String → Validator
  | vStringWordRe : Validator
  | vBoolean : Validator
  | vOptional : Validator → Validator
  | vOr : Validator → Validator → Validator
  | vArrayEach : Validator → Validator
  | vObject : List (String × Validator) → Option Validator → Validator

/-- `^[a-z0-9_]+$` (Go RE2, anchored): a non-empty string of lowercase
letters, digits and underscores. -/
def wordOk (s : String) : Bool :=
  !s.data.isEmpty && s.data.all (fun c =>
    (97 ≤ c.toNat && c.toNat ≤ 122) || (48 ≤ c.toNat && c.toNat ≤ 57) || c.toNat == 95)

/-- Validate the listed object fields in order (`v.ObjKV`, applied to the
already-compiled field checkers); a missing object key is validated as
`null`, matching Go's nil `interface` values, and the first failure is
reported under the field's key. -/
def fieldApply : List (String × (Json → Option (List String))) → List (String × Json) →
    Option (List String)
  | [], _ => none
  | (k, f) :: rest, kvs =>
      match f ((List.lookup k kvs).getD Json.null) with
      | some p => some (k :: p)
      | none => fieldApply rest kvs

/-- Validate every array element (`v.ArrEach`); the first failure is
reported under the element's index. -/
def elemApply (f : Json → Option (List String)) : List Json → Nat → Option (List String)
  | [], _ => none
  | x :: rest, i =>
      match f x with
      | some p => some (toString i :: p)
      | none => elemApply f rest (i + 1)

/-- Validate every object key (`v.ObjKeys`); the first failure is reported
under the offending key. -/
def keyApply (f : Json → Option (List String)) : List (String × Json) → Option (List String)
  | [] => none
  | (k, _) :: rest =>
      match f (Json.str k) with
      | some p => some (k :: p)
      | none => keyApply f rest

mutual
/-- Evaluate a rule tree against a JSON value: `none` is a pass, `some p`
is the first failure with its path `p` (key/index segments from the root). -/
def validateV (v : Validator) (j : Json) : Option (List String) :=
  match v with
  | .vString => (match j with | .str _ => none | _ => some [])
  | .vStringIs lit =>
      (match j with
       | .str s => if s = lit then none else some []
       | _ => some [])
  | .vStringWordRe =>
      (match j with
       | .str s => if wordOk s then none else some []
       | _ => some [])
  | .vBoolean => (match j with | .bool _ => none | _ => some [])
  | .vOptional v2 => (match j with | .null => none | _ => validateV v2 j)
  | .vOr a b =>
      (match validateV a j with
       | none => none
       | some p =>
           match validateV b j with
           | none => none
           | some _ => some p)
  | .vArrayEach ev => (match j with | .arr xs => elemApply (validateV ev) xs 0 | _ => some [])
  | .vObject fields keysV =>
      (match j with
       | .obj kvs =>
           (match fieldApply (compileFields fields) kvs with
            | some p => some p
            | none =>
                match keysV with
                | none => none
                | some kv => keyApply (validateV kv) kvs)
       | _ => some [])
termination_by structural v

/-- Compile each listed field's sub-rule (`v.ObjKV`). -/
def compileFields : List (String × Validator) → List (String × (Json → Option (List String)))
  | [] => []
  | (k, v) :: rest => (k, validateV v) :: compileFields rest
termination_by structural l => l
end

/-- `v.Optional(v.String())` for `access_token`. -/
def schemeAccessToken : Validator := .vOptional .vString

/-- The `user_info` sub-scheme: required string fields `iss` and `sub`. -/
def schemeUserInfo : Validator := .vObject [("iss", .vString), ("sub", .vString)] none

/-- The `additional_logins` sub-scheme. -/
def schemeAdditionalLogins : Validator :=
  .vArrayEach (.vObject [("user_info", schemeUserInfo), ("access_token", schemeAccessToken)] none)

/-- `conf_params`/`params`: an object whose keys all match `^[a-z0-9_]+$`. -/
def schemeParams : Validator := .vObject [] (some .vStringWordRe)

/-- The plugin-input scheme (`pluginInputScheme` in the source). -/
def pluginInputScheme : Validator :=
  .vObject
    [("watts_version", .vString),
     ("watts_userid", .vString),
     ("cred_state", .vString),
     ("access_token", schemeAccessToken),
     ("additional_logins", schemeAdditionalLogins),
     ("conf_params", schemeParams),
     ("params", schemeParams),
     ("user_info", schemeUserInfo)]
    none

/-- One `conf_params` entry of a `parameter` response. -/
def confParamsElem : Validator :=
  .vObject [("name", .vString), ("type", .vString), ("default", .vString)] none

/-- One `request_params` entry of a `parameter` response. -/
def requestParamsElem : Validator :=
  .vObject
    [("key", .vString), ("name", .vString), ("description", .vString),
     ("type", .vString), ("mandatory", .vBoolean)] none

/-- `schemes["parameter"]`. -/
def parameterScheme : Validator :=
  .vObject
    [("result", .vStringIs "ok"),
     ("conf_params", .vArrayEach confParamsElem),
     ("request_params", .vArrayEach (.vArrayEach requestParamsElem)),
     ("version", .vString)]
    none

/-- The error alternative shared by `request` and `revoke`. -/
def errorResultScheme : Validator :=
  .vObject [("result", .vStringIs "error"), ("user_msg", .vString), ("log_msg", .vString)] none

/-- `schemes["request"]`. -/
def requestScheme : Validator :=
  .vOr
    (.vObject
      [("result", .vStringIs "ok"),
       ("credential", .vArrayEach (.vObject
         [("name", .vString), ("type", .vString), ("value", .vString)] none)),
       ("state", .vString)]
      none)
    errorResultScheme

/-- `schemes["revoke"]`. -/
def revokeScheme : Validator :=
  .vOr (.vObject [("result", .vStringIs "ok")] none) errorResultScheme

/-- The `schemes` map: Go map indexing returns the nil validator for any
other action (`none` here). -/
def lookupScheme (action : String) : Option Validator :=
  if action = "parameter" then some parameterScheme
  else if action = "request" then some requestScheme
  else if action = "revoke" then some revokeScheme
  else none

/-- The compiled-in default plugin input (`defaultPluginInput` in the
source): note that neither `action` nor `watts_userid` is present. -/
def defaultPluginInput : PIn :=
  [("watts_version", .str "1.0.0"),
   ("cred_state", .str "undefined"),
   ("conf_params", .obj []),
   ("params", .obj []),
   ("user_info", .obj [("iss", .str "https://issuer.example.com"), ("sub", .str "123456789")]),
   ("additional_logins", .arr [])]

/-- `mergo.Merge(&dst, src)` on `map[string]*json.RawMessage`: every key
already present in `dst` keeps its `dst` value wholesale; keys missing from
`dst` are filled from `src`. -/
def mergoMerge (dst src : PIn) : PIn :=
  dst ++ src.filter (fun kv => (List.lookup kv.1 dst).isNone)

/-- `specifyPluginInput`: without an override file the default document is
used as-is; otherwise the parsed override is merged over the default. -/
def specifyPluginInput (override : Option PIn) : PIn :=
  match override with
  | none => defaultPluginInput
  | some ov => mergoMerge ov defaultPluginInput

/-- Process termination as observed by a caller: a regular exit code, or a
Go runtime panic. -/
inductive ExitStatus where
  | code : Nat → ExitStatus
  | panicked : ExitStatus
deriving DecidableEq

/-- `generateUserID` on a plugin input: requires the `user_info` entry to
decode as a JSON object, then stamps `watts_userid` with the derived
identifier.  A missing `user_info` entry, or one merged from an explicit
JSON `null` (a nil `*json.RawMessage`), makes the Go code dereference a nil
pointer (panic); any other non-object makes `json.Unmarshal` fail and the
tool call `os.Exit(1)`. -/
def generateUserIDJson (p : PIn) : Except ExitStatus PIn :=
  match List.lookup "user_info" p with
  | some (.obj kvs) => .ok (setKey p "watts_userid" (.str (genUserIdStr kvs)))
  | some .null => .error .panicked
  | none => .error .panicked
  | some _ => .error (.code 1)

/-- `(p *PluginInput) validate()`: marshal, re-decode, check against
`pluginInputScheme` (at the level of JSON values the marshal/decode
round-trip is the identity). -/
def validatePluginInput (p : PIn) : Option (List String) :=
  validateV pluginInputScheme (Json.obj p)

/-- The `--json` override argument: absent, a file that does not read or
parse as a plugin-input document, or a parsed override document. -/
inductive OverrideArg where
  | absent : OverrideArg
  | malformed : OverrideArg
  | parsed : PIn → OverrideArg

/-- The observable outcome of `exec.Command(...).CombinedOutput()` plus the
`json.Unmarshal` of the captured output: a spawn failure or non-zero exit
(`execError`), or a zero exit carrying the decode result (`none` when the
output is not JSON, in which case Go leaves the decoded `interface` nil,
indistinguishable from decoded JSON `null`). -/
inductive ExecOut where
  | execError : ExecOut
  | ok : Option Json → ExecOut

/-- The result field of `doPluginTest`'s structured output. -/
inductive TestResult where
  | processError : TestResult
  | panicNilScheme : TestResult
  | validationError : List String → TestResult
  | passed : TestResult
deriving DecidableEq

/-- `doPluginTest` after the plugin has run: an execution error is reported
as "error executing the plugin"; otherwise the output is decoded (decode
errors ignored, leaving JSON `null`), the schema for the action is looked
up — for an unknown action the map yields Go's nil validator and calling
`Validate` on it panics — and the decoded output is validated. -/
def doPluginTest (action : String) (exec : ExecOut) : TestResult :=
  match exec with
  | .execError => .processError
  | .ok dec =>
      match lookupScheme action with
      | none => .panicNilScheme
      | some sch =>
          match validateV sch (dec.getD Json.null) with
          | none => .passed
          | some path => .validationError path

/-- Events observable from outside the process during one `test` command. -/
inductive RunEvent where
  | invoked : RunEvent
deriving DecidableEq

/-- The observable outcome of one `test` command: the events that happened,
the process termination status, the reported result (when the run got that
far) and the canonical plugin input that was sent to the plugin. -/
structure RunOutcome where
  events : List RunEvent
  exit : ExitStatus
  result : Option TestResult
  sentInput : Option PIn

/-- Phase one of the `test` command (`main`): build the canonical plugin
input — merge the override over the default, force the `action` field,
stamp `watts_userid`, and validate the result, exiting with code 1 on a
malformed override or an input-validation failure. -/
def buildInput (ov : OverrideArg) (action : String) : Except ExitStatus PIn :=
  match ov with
  | .malformed => .error (.code 1)
  | .absent => buildFrom (specifyPluginInput none) action
  | .parsed doc => buildFrom (specifyPluginInput (some doc)) action
where
  buildFrom (merged : PIn) (action : String) : Except ExitStatus PIn :=
    match generateUserIDJson (setKey merged "action" (.str action)) with
    | .error e => .error e
    | .ok stamped =>
        match validatePluginInput stamped with
        | some _ => .error (.code 1)
        | none => .ok stamped

/-- The whole `test` command: build the input, then invoke the plugin and
report.  A completed run — validation failure or plugin-execution failure
included — falls off the end of `main`, so the process exits with code 0;
only the unknown-action nil-scheme panic escapes. -/
def runTest (ov : OverrideArg) (action : String) (exec : ExecOut) : RunOutcome :=
  match buildInput ov action with
  | .error e => ⟨[], e, none, none⟩
  | .ok inp =>
      let res := doPluginTest action exec
      ⟨[.invoked],
       (match res with | .panicNilScheme => .panicked | _ => .code 0),
       some res, some inp⟩

/-- The `default` command: with `--validate` the compiled-in default
document is validated first (failure exits with code 1); the identity
deriver is never run on this path. -/
def runDefaultCmd (validate : Bool) : ExitStatus :=
  if validate then
    match validatePluginInput defaultPluginInput with
    | some _ => .code 1
    | none => .code 0
  else .code 0

/-- A `*json.RawMessage` slot of a plugin-input map: either an owned value
or a pointer to the package-level variable `defaultWattsUserId`. -/
inductive JRef where
  | val : Json → JRef
  | wattsPtr : JRef

/-- The package-level mutable state relevant to `generateUserID`: the
variable `defaultWattsUserId`. -/
structure TState where
  wattsGlobal : Json

/-- A plugin input whose slots may alias the package-level variable. -/
abbrev HIn := List (String × JRef)

/-- Dereference a slot in the current state. -/
def readRef (s : TState) : JRef → Json
  | .val j => j
  | .wattsPtr => s.wattsGlobal

/-- Go map assignment on an aliasing plugin input. -/
def setKeyH (p : HIn) (k : String) (v : JRef) : HIn := assocSet p k v

/-- `generateUserID` with its real effect structure: it assigns the derived
identifier to the package-level variable `defaultWattsUserId` and stores a
pointer to that variable into the map, so every stamped input aliases the
same variable. -/
def generateUserIDAlias (s : TState) (p : HIn) : Option (TState × HIn) :=
  match List.lookup "user_info" p with
  | some r =>
      match readRef s r with
      | .obj kvs => some (⟨.str (genUserIdStr kvs)⟩, setKeyH p "watts_userid" .wattsPtr)
      | _ => none
  | none => none

/-- The `watts_userid` a reader of the map observes in the current state. -/
def observeWatts (s : TState) (p : HIn) : Option Json :=
  (List.lookup "watts_userid" p).map (readRef s)

/-- The identity derivation exactly as the specification words it, except
with the field names kept as `iss` and `sub`: serialize the reduced
two-field object to a compact key-order-stable encoding (built here by
plain concatenation), escape every forward slash, base64url-encode. -/
def deriveUserIdSpec (iss sub : String) : String :=
  String.mk (b64Enc (escapeSlash
    (("\x7b\"iss\":".data.map Char.toNat) ++ strBytes iss ++
     (",\"sub\":".data.map Char.toNat) ++ strBytes sub ++ [125])))

/-- The identity derivation as claimed: field names renamed to `issuer`
and `subject`, then the same serialize/escape/encode pipeline. -/
def deriveUserIdRenamed (iss sub : String) : String :=
  String.mk (b64Enc (escapeSlash (marshalBytes (Json.obj
    [("issuer", Json.str iss), ("subject", Json.str sub)]))))

/-- Inverse of `b64Alpha` on the alphabet. -/
def b64Inv (c : Char) : Option Nat := b64Chars.findIdx? (· == c)

/-- Decoder for `b64Enc` (left inverse on encoder images). -/
def b64Dec : List Char → Option (List Nat)
  | c1 :: c2 :: c3 :: c4 :: rest => do
      let i1 ← b64Inv c1
      let i2 ← b64Inv c2
      let i3 ← b64Inv c3
      let i4 ← b64Inv c4
      let tail ← b64Dec rest
      pure ((i1 * 4 + i2 / 16) :: ((i2 % 16) * 16 + i3 / 4) :: ((i3 % 4) * 64 + i4) :: tail)
  | [c1, c2, c3] => do
      let i1 ← b64Inv c1
      let i2 ← b64Inv c2
      let i3 ← b64Inv c3
      pure [i1 * 4 + i2 / 16, (i2 % 16) * 16 + i3 / 4]
  | [c1, c2] => do
      let i1 ← b64Inv c1
      let i2 ← b64Inv c2
      pure [i1 * 4 + i2 / 16]
  | [_] => none
  | [] => some []

/-- Decoder for `escapeSlash` (left inverse on encoder images): a `\`
followed by `/` decodes to the single byte `/`. -/
def slashDec : List Nat → List Nat
  | [] => []
  | [b] => [b]
  | b :: b2 :: rest =>
      if b = 92 ∧ b2 = 47 then 47 :: slashDec rest
      else b :: slashDec (b2 :: rest)

/-- Inverse of `hexDig` on hex-digit bytes. -/
def hexInv (b : Nat) : Option Nat :=
  if 48 ≤ b ∧ b ≤ 57 then some (b - 48)
  else if 97 ≤ b ∧ b ≤ 102 then some (b - 87)
  else none

/-- Decode four hex-digit bytes into a code point. -/
def hexQuad (h1 h2 h3 h4 : Nat) : Option Nat := do
  let d1 ← hexInv h1
  let d2 ← hexInv h2
  let d3 ← hexInv h3
  let d4 ← hexInv h4
  pure (d1 * 4096 + d2 * 256 + d3 * 16 + d4)

/-- Prepend a decoded code point to a decoder result. -/
def consCp (n : Nat) : Option (List Nat × List Nat) → Option (List Nat × List Nat)
  | some (cs, r) => some (n :: cs, r)
  | none => none

mutual
/-- Decoder for the escaped body of a JSON string literal (left inverse of
`flatMap encCp` on images): reads escapes and UTF-8 sequences until the
closing-quote byte 34, returning the decoded code points and the rest. -/
def bodyDec : List Nat → Option (List Nat × List Nat)
  | [] => none
  | b :: rest =>
      if b = 34 then some ([], rest)
      else if b = 92 then escDec rest
      else if b < 128 then consCp b (bodyDec rest)
      else if b < 192 then none
      else if b < 224 then twoDec b rest
      else if b < 240 then threeDec b rest
      else fourDec b rest

/-- Decode what follows a backslash. -/
def escDec : List Nat → Option (List Nat × List Nat)
  | [] => none
  | e :: r2 =>
      if e = 34 then consCp 34 (bodyDec r2)
      else if e = 92 then consCp 92 (bodyDec r2)
      else if e = 110 then consCp 10 (bodyDec r2)
      else if e = 114 then consCp 13 (bodyDec r2)
      else if e = 116 then consCp 9 (bodyDec r2)
      else if e = 117 then hexDec r2
      else none

/-- Decode the four hex digits of a `\u` escape. -/
def hexDec : List Nat → Option (List Nat × List Nat)
  | h1 :: h2 :: h3 :: h4 :: r3 =>
      (match hexQuad h1 h2 h3 h4 with
       | some m => consCp m (bodyDec r3)
       | none => none)
  | _ => none

/-- Decode the continuation byte of a two-byte UTF-8 sequence. -/
def twoDec (b : Nat) : List Nat → Option (List Nat × List Nat)
  | b2 :: r2 => consCp ((b - 192) * 64 + (b2 - 128)) (bodyDec r2)
  | [] => none

/-- Decode the continuation bytes of a three-byte UTF-8 sequence. -/
def threeDec (b : Nat) : List Nat → Option (List Nat × List Nat)
  | b2 :: b3 :: r2 => consCp ((b - 224) * 4096 + (b2 - 128) * 64 + (b3 - 128)) (bodyDec r2)
  | _ => none

/-- Decode the continuation bytes of a four-byte UTF-8 sequence. -/
def fourDec (b : Nat) : List Nat → Option (List Nat × List Nat)
  | b2 :: b3 :: b4 :: r2 =>
      consCp ((b - 240) * 262144 + (b2 - 128) * 4096 + (b3 - 128) * 64 + (b4 - 128))
        (bodyDec r2)
  | _ => none
end

/-- The three actions that have a schema. -/
def supportedActions : List String := ["parameter", "request", "revoke"]

/-- The well-formed `parameter` response of concrete scenario 2. -/
def goodParameterOutput : Json :=
  .obj [("result", .str "ok"), ("conf_params", .arr []),
        ("request_params", .arr []), ("version", .str "1.0.0")]

/-- The `parameter` response of concrete scenario 3 (missing
`conf_params`). -/
def missingConfParamsOutput : Json := .obj [("result", .str "ok")]

/-- Concrete override document used to witness claim C5: it tries to smuggle
in a `watts_userid`. -/
def c5Override : PIn :=
  [("user_info", .obj [("iss", .str "urn:example"), ("sub", .str "alpha")]),
   ("watts_userid", .str "evil")]

/-- The canonical input actually sent to the plugin for `c5Override`. -/
def c5Sent : PIn :=
  [("watts_userid", .str "eyJpc3MiOiJ1cm46ZXhhbXBsZSIsInN1YiI6ImFscGhhIn0"),
   ("action", .str "parameter"),
   ("user_info", .obj [("iss", .str "urn:example"), ("sub", .str "alpha")]),
   ("watts_version", .str "1.0.0"),
   ("cred_state", .str "undefined"),
   ("conf_params", .obj []),
   ("params", .obj []),
   ("additional_logins", .arr [])]

/-- Concrete aliasing plugin input A (claim C9). -/
def c9InputA : HIn := [("user_info", JRef.val (.obj [("iss", .str "i"), ("sub", .str "a")]))]

/-- Concrete aliasing plugin input B (claim C9). -/
def c9InputB : HIn := [("user_info", JRef.val (.obj [("iss", .str "i"), ("sub", .str "b")]))]

/-- An override whose `watts_version` is not a string, so input validation
fails (used to witness the exit-code behavior). -/
def c8BadOverride : PIn := [("watts_version", .num 5)]

/-- The identifier derived from the compiled-in default `user_info`. -/
def defaultDerivedId : String :=
  "eyJpc3MiOiJodHRwczpcL1wvaXNzdWVyLmV4YW1wbGUuY29tIiwic3ViIjoiMTIzNDU2Nzg5In0"

/-- `c9InputA` after stamping: its `watts_userid` slot is a pointer to the
package-level variable. -/
def c9StampedA : HIn :=
  [("watts_userid", .wattsPtr),
   ("user_info", JRef.val (.obj [("iss", .str "i"), ("sub", .str "a")]))]

/-- `c9InputB` after stamping. -/
def c9StampedB : HIn :=
  [("watts_userid", .wattsPtr),
   ("user_info", JRef.val (.obj [("iss", .str "i"), ("sub", .str "b")]))]

theorem lookup_assocSet_self {β : Type} (p : List (String × β)) (k : String) (v : β) :
    List.lookup k (assocSet p k v) = some v := by
  simp [assocSet, List.lookup_cons]

theorem lookup_filter_out {β : Type} (p : List (String × β)) (k k2 : String) (h : k2 ≠ k) :
    List.lookup k2 (p.filter (fun kv => !(kv.1 == k))) = List.lookup k2 p := by
  induction p with
  | nil => rfl
  | cons a rest ih =>
      obtain ⟨k1, v1⟩ := a
      by_cases h1 : k1 = k
      · subst h1
        have hb : (k2 == k1) = false := beq_false_of_ne h
        simp [List.filter_cons, List.lookup_cons, hb, ih]
      · by_cases h2 : k2 = k1
        · subst h2
          simp [List.filter_cons, beq_false_of_ne h1, List.lookup_cons]
        · simp [List.filter_cons, beq_false_of_ne h1, List.lookup_cons,
                beq_false_of_ne h2, ih]

theorem lookup_assocSet_ne {β : Type} (p : List (String × β)) (k k2 : String) (v : β)
    (h : k2 ≠ k) : List.lookup k2 (assocSet p k v) = List.lookup k2 p := by
  simp [assocSet, List.lookup_cons, beq_false_of_ne h, lookup_filter_out p k k2 h]

theorem lookup_append_or {β : Type} (l1 l2 : List (String × β)) (k : String) :
    List.lookup k (l1 ++ l2) = (List.lookup k l1).or (List.lookup k l2) := by
  induction l1 with
  | nil => simp
  | cons a rest ih =>
      obtain ⟨k1, v1⟩ := a
      by_cases hk : k = k1
      · subst hk
        simp [List.lookup_cons]
      · simp [List.lookup_cons, beq_false_of_ne hk, ih]

theorem lookup_mergoMerge (dst src : PIn) (k : String) :
    List.lookup k (mergoMerge dst src) =
      if (List.lookup k dst).isSome then List.lookup k dst else List.lookup k src := by
  unfold mergoMerge
  rw [lookup_append_or]
  cases hd : List.lookup k dst with
  | some v => simp
  | none =>
      simp only [Option.isSome_none, Bool.false_eq_true, if_false, Option.none_or]
      induction src with
      | nil => rfl
      | cons a rest ih =>
          obtain ⟨k1, v1⟩ := a
          by_cases hk : k = k1
          · subst hk
            simp [List.filter_cons, List.lookup_cons, hd]
          · by_cases hkeep : (List.lookup k1 dst).isNone
            · simp [List.filter_cons, hkeep, List.lookup_cons, beq_false_of_ne hk, ih]
            · simp [List.filter_cons, hkeep, List.lookup_cons, beq_false_of_ne hk, ih]

theorem b64Inv_alpha : ∀ i < 64, b64Inv (b64Alpha i) = some i := by decide

theorem b64Dec_enc : ∀ bs : List Nat, (∀ b ∈ bs, b < 256) → b64Dec (b64Enc bs) = some bs
  | [], _ => rfl
  | [b1], h => by
      have h1 : b1 < 256 := h b1 (by simp)
      simp only [b64Enc, b64Dec]
      rw [b64Inv_alpha _ (by omega), b64Inv_alpha _ (by omega)]
      simp only [Option.bind_eq_bind, Option.some_bind, Option.pure_def,
        Option.some.injEq, List.cons.injEq, and_true]
      omega
  | [b1, b2], h => by
      have h1 : b1 < 256 := h b1 (by simp)
      have h2 : b2 < 256 := h b2 (by simp)
      simp only [b64Enc, b64Dec]
      rw [b64Inv_alpha _ (by omega), b64Inv_alpha _ (by omega), b64Inv_alpha _ (by omega)]
      simp only [Option.bind_eq_bind, Option.some_bind, Option.pure_def,
        Option.some.injEq, List.cons.injEq, and_true]
      omega
  | b1 :: b2 :: b3 :: rest, h => by
      have h1 : b1 < 256 := h b1 (by simp)
      have h2 : b2 < 256 := h b2 (by simp)
      have h3 : b3 < 256 := h b3 (by simp)
      have ihr : b64Dec (b64Enc rest) = some rest :=
        b64Dec_enc rest (fun b hb => h b (by simp [hb]))
      have hsplit : ∀ cs : List Char, b64Enc (b1 :: b2 :: b3 :: rest) =
          b64Alpha (b1 / 4) :: b64Alpha ((b1 % 4) * 16 + b2 / 16) ::
          b64Alpha ((b2 % 16) * 4 + b3 / 64) :: b64Alpha (b3 % 64) :: b64Enc rest :=
        fun _ => rfl
      rw [hsplit []]
      simp only [b64Dec]
      rw [b64Inv_alpha _ (by omega), b64Inv_alpha _ (by omega),
          b64Inv_alpha _ (by omega), b64Inv_alpha _ (by omega), ihr]
      simp only [Option.bind_eq_bind, Option.some_bind, Option.pure_def,
        Option.some.injEq, List.cons.injEq, and_true]
      omega

theorem escapeSlash_ne_47_head : ∀ (t r : List Nat), escapeSlash t ≠ 47 :: r := by
  intro t r
  cases t with
  | nil => simp [escapeSlash]
  | cons c t2 =>
      by_cases hc : c = 47
      · subst hc
        simp [escapeSlash]
      · simp only [escapeSlash, List.flatMap_cons, List.singleton_append, if_neg hc]
        intro hcontra
        exact hc (by injection hcontra)

theorem slashDec_pair (b b2 : Nat) (t : List Nat) (h : ¬(b = 92 ∧ b2 = 47)) :
    slashDec (b :: b2 :: t) = b :: slashDec (b2 :: t) := by
  simp [slashDec, h]

theorem slashDec_esc : ∀ bs : List Nat, slashDec (escapeSlash bs) = bs := by
  intro bs
  induction bs with
  | nil => rfl
  | cons b t ih =>
      by_cases h47 : b = 47
      · subst h47
        simp only [escapeSlash, List.flatMap_cons, List.cons_append, List.nil_append,
          if_pos rfl] at ih ⊢
        simp only [slashDec, if_pos (by exact ⟨rfl, rfl⟩ : (92 : Nat) = 92 ∧ (47 : Nat) = 47)]
        exact congrArg (47 :: ·) ih
      · simp only [escapeSlash, List.flatMap_cons, List.singleton_append, if_neg h47] at ih ⊢
        cases he : escapeSlash t with
        | nil =>
            rw [show (escapeSlash t) = t.flatMap fun b => if b = 47 then [92, 47] else [b]
              from rfl] at he
            rw [he] at ih ⊢
            simpa [slashDec] using ih
        | cons e etail =>
            have hne : e ≠ 47 := fun hcontra =>
              escapeSlash_ne_47_head t etail (by rw [he, hcontra])
            rw [show (escapeSlash t) = t.flatMap fun b => if b = 47 then [92, 47] else [b]
              from rfl] at he
            rw [he] at ih ⊢
            rw [slashDec_pair b e etail (fun hand => hne hand.2)]
            exact congrArg (b :: ·) ih


theorem hexInv_dig : ∀ d < 16, hexInv (hexDig d) = some d := by decide

theorem hexQuad_dig (n : Nat) (h : n < 65536) :
    hexQuad (hexDig (n / 4096 % 16)) (hexDig (n / 256 % 16))
      (hexDig (n / 16 % 16)) (hexDig (n % 16)) = some n := by
  unfold hexQuad
  rw [hexInv_dig _ (by omega), hexInv_dig _ (by omega), hexInv_dig _ (by omega),
      hexInv_dig _ (by omega)]
  simp only [Option.bind_eq_bind, Option.some_bind, Option.pure_def, Option.some.injEq]
  omega

theorem bodyDec_quote (t : List Nat) : bodyDec (34 :: t) = some ([], t) := by
  rw [bodyDec]
  norm_num

theorem bodyDec_ascii (b : Nat) (t : List Nat) (h34 : b ≠ 34) (h92 : b ≠ 92)
    (hlt : b < 128) : bodyDec (b :: t) = consCp b (bodyDec t) := by
  rw [bodyDec, if_neg h34, if_neg h92, if_pos hlt]

theorem bodyDec_esc (t : List Nat) : bodyDec (92 :: t) = escDec t := by
  rw [bodyDec]
  norm_num

theorem bodyDec_two (b : Nat) (t : List Nat) (hlo : 192 ≤ b) (hhi : b < 224) :
    bodyDec (b :: t) = twoDec b t := by
  rw [bodyDec, if_neg (by omega : ¬b = 34), if_neg (by omega : ¬b = 92),
      if_neg (by omega : ¬b < 128), if_neg (by omega : ¬b < 192), if_pos hhi]

theorem bodyDec_three (b : Nat) (t : List Nat) (hlo : 224 ≤ b) (hhi : b < 240) :
    bodyDec (b :: t) = threeDec b t := by
  rw [bodyDec, if_neg (by omega : ¬b = 34), if_neg (by omega : ¬b = 92),
      if_neg (by omega : ¬b < 128), if_neg (by omega : ¬b < 192),
      if_neg (by omega : ¬b < 224), if_pos hhi]

theorem bodyDec_four (b : Nat) (t : List Nat) (hlo : 240 ≤ b) :
    bodyDec (b :: t) = fourDec b t := by
  rw [bodyDec, if_neg (by omega : ¬b = 34), if_neg (by omega : ¬b = 92),
      if_neg (by omega : ¬b < 128), if_neg (by omega : ¬b < 192),
      if_neg (by omega : ¬b < 224), if_neg (by omega : ¬b < 240)]

theorem bodyDec_encCp (n : Nat) (hval : n < 1114112) (t : List Nat) :
    bodyDec (encCp n ++ t) = consCp n (bodyDec t) := by
  by_cases h34 : n = 34
  · subst h34
    rw [show encCp 34 ++ t = 92 :: 34 :: t from rfl, bodyDec_esc, escDec]
    norm_num
  by_cases h92 : n = 92
  · subst h92
    rw [show encCp 92 ++ t = 92 :: 92 :: t from rfl, bodyDec_esc, escDec]
    norm_num
  by_cases h10 : n = 10
  · subst h10
    rw [show encCp 10 ++ t = 92 :: 110 :: t from rfl, bodyDec_esc, escDec]
    norm_num
  by_cases h13 : n = 13
  · subst h13
    rw [show encCp 13 ++ t = 92 :: 114 :: t from rfl, bodyDec_esc, escDec]
    norm_num
  by_cases h9 : n = 9
  · subst h9
    rw [show encCp 9 ++ t = 92 :: 116 :: t from rfl, bodyDec_esc, escDec]
    norm_num
  by_cases hu : n < 32 ∨ n = 60 ∨ n = 62 ∨ n = 38 ∨ n = 8232 ∨ n = 8233
  · have henc : encCp n = 92 :: 117 :: hex4 n := by
      rw [encCp, if_neg h34, if_neg h92, if_neg h10, if_neg h13, if_neg h9, if_pos hu]
    rw [henc, show (92 :: 117 :: hex4 n) ++ t =
        92 :: 117 :: (hexDig (n / 4096 % 16) :: hexDig (n / 256 % 16) ::
          hexDig (n / 16 % 16) :: hexDig (n % 16) :: t) from rfl]
    rw [bodyDec_esc, escDec]
    norm_num
    rw [hexDec, hexQuad_dig n (by omega)]
  · have henc : encCp n = utf8Cp n := by
      rw [encCp, if_neg h34, if_neg h92, if_neg h10, if_neg h13, if_neg h9, if_neg hu]
    by_cases ha : n < 128
    · rw [henc, utf8Cp, if_pos ha, List.singleton_append,
        bodyDec_ascii n t h34 h92 ha]
    by_cases hb : n < 2048
    · have hu2 : utf8Cp n = [192 + n / 64, 128 + n % 64] := by
        rw [utf8Cp, if_neg ha, if_pos hb]
      rw [henc, hu2, show [192 + n / 64, 128 + n % 64] ++ t =
          (192 + n / 64) :: (128 + n % 64) :: t from rfl]
      rw [bodyDec_two _ _ (by omega) (by omega), twoDec]
      have : (192 + n / 64 - 192) * 64 + (128 + n % 64 - 128) = n := by omega
      rw [this]
    by_cases hc : n < 65536
    · have hu3 : utf8Cp n = [224 + n / 4096, 128 + n / 64 % 64, 128 + n % 64] := by
        rw [utf8Cp, if_neg ha, if_neg hb, if_pos hc]
      rw [henc, hu3, show [224 + n / 4096, 128 + n / 64 % 64, 128 + n % 64] ++ t =
          (224 + n / 4096) :: (128 + n / 64 % 64) :: (128 + n % 64) :: t from rfl]
      rw [bodyDec_three _ _ (by omega) (by omega), threeDec]
      have : (224 + n / 4096 - 224) * 4096 + (128 + n / 64 % 64 - 128) * 64 +
          (128 + n % 64 - 128) = n := by omega
      rw [this]
    · have hu4 : utf8Cp n =
          [240 + n / 262144, 128 + n / 4096 % 64, 128 + n / 64 % 64, 128 + n % 64] := by
        rw [utf8Cp, if_neg ha, if_neg hb, if_neg hc]
      rw [henc, hu4, show
          [240 + n / 262144, 128 + n / 4096 % 64, 128 + n / 64 % 64, 128 + n % 64] ++ t =
          (240 + n / 262144) :: (128 + n / 4096 % 64) :: (128 + n / 64 % 64) ::
            (128 + n % 64) :: t from rfl]
      rw [bodyDec_four _ _ (by omega), fourDec]
      have : (240 + n / 262144 - 240) * 262144 + (128 + n / 4096 % 64 - 128) * 4096 +
          (128 + n / 64 % 64 - 128) * 64 + (128 + n % 64 - 128) = n := by omega
      rw [this]

theorem bodyDec_flat : ∀ cps : List Nat, (∀ n ∈ cps, n < 1114112) →
    ∀ rest : List Nat, bodyDec (cps.flatMap encCp ++ 34 :: rest) = some (cps, rest) := by
  intro cps
  induction cps with
  | nil =>
      intro _ rest
      simpa using bodyDec_quote rest
  | cons n cps2 ih =>
      intro h rest
      have hn : n < 1114112 := h n (by simp)
      rw [List.flatMap_cons, List.append_assoc,
        bodyDec_encCp n hn (cps2.flatMap encCp ++ 34 :: rest),
        ih (fun m hm => h m (by simp [hm])) rest]
      rfl

theorem char_toNat_lt (c : Char) : c.toNat < 1114112 := by
  rcases c.valid with h | ⟨h1, h2⟩
  · exact Nat.lt_trans h (by norm_num)
  · exact h2

theorem char_toNat_inj {c d : Char} (h : c.toNat = d.toNat) : c = d :=
  Char.eq_of_val_eq (UInt32.eq_of_val_eq (Fin.ext h))

theorem strBody_cancel {s1 s2 : String} (t : List Nat)
    (h : strBody s1 ++ 34 :: t = strBody s2 ++ 34 :: t) : s1 = s2 := by
  have h1 := bodyDec_flat (s1.data.map Char.toNat)
    (by intro n hn; obtain ⟨c, _, rfl⟩ := List.mem_map.mp hn; exact char_toNat_lt c) t
  have h2 := bodyDec_flat (s2.data.map Char.toNat)
    (by intro n hn; obtain ⟨c, _, rfl⟩ := List.mem_map.mp hn; exact char_toNat_lt c) t
  rw [show (s1.data.map Char.toNat).flatMap encCp = strBody s1 from rfl] at h1
  rw [show (s2.data.map Char.toNat).flatMap encCp = strBody s2 from rfl] at h2
  rw [h] at h1
  rw [h1] at h2
  have hmap : s1.data.map Char.toNat = s2.data.map Char.toNat := by
    injection h2 with h3
    injection h3
  have hdata : s1.data = s2.data :=
    List.map_injective_iff.mpr (fun _ _ => char_toNat_inj) hmap
  cases s1
  cases s2
  exact congrArg String.mk (by simpa using hdata)

theorem hexDig_lt (d : Nat) (h : d < 16) : hexDig d < 256 := by
  unfold hexDig
  split <;> omega

theorem encCp_lt (n : Nat) (hn : n < 1114112) : ∀ b ∈ encCp n, b < 256 := by
  intro b hb
  unfold encCp at hb
  split at hb
  · simp at hb; omega
  · split at hb
    · simp at hb; omega
    · split at hb
      · simp at hb; omega
      · split at hb
        · simp at hb; omega
        · split at hb
          · simp at hb; omega
          · split at hb
            · simp only [List.mem_cons] at hb
              rcases hb with rfl | rfl | hb
              · omega
              · omega
              · unfold hex4 at hb
                simp only [List.mem_cons, List.not_mem_nil, or_false] at hb
                rcases hb with rfl | rfl | rfl | rfl <;> exact hexDig_lt _ (by omega)
            · unfold utf8Cp at hb
              split at hb
              · simp at hb; omega
              · split at hb
                · simp at hb
                  rcases hb with rfl | rfl <;> omega
                · split at hb
                  · simp at hb
                    rcases hb with rfl | rfl | rfl <;> omega
                  · simp at hb
                    rcases hb with rfl | rfl | rfl | rfl <;> omega

theorem strBody_lt (s : String) : ∀ b ∈ strBody s, b < 256 := by
  intro b hb
  unfold strBody at hb
  obtain ⟨n, hn, hbn⟩ := List.mem_flatMap.mp hb
  obtain ⟨c, _, rfl⟩ := List.mem_map.mp hn
  exact encCp_lt _ (char_toNat_lt c) b hbn

theorem escapeSlash_lt (bs : List Nat) (h : ∀ b ∈ bs, b < 256) :
    ∀ b ∈ escapeSlash bs, b < 256 := by
  intro b hb
  unfold escapeSlash at hb
  obtain ⟨x, hx, hbx⟩ := List.mem_flatMap.mp hb
  by_cases h47 : x = 47
  · simp [h47] at hbx
    rcases hbx with rfl | rfl <;> omega
  · simp [h47] at hbx
    subst hbx
    exact h _ hx

theorem marshal_reduced (I S : String) :
    marshalBytes (Json.obj [("iss", .str I), ("sub", .str S)]) =
      [123, 34, 105, 115, 115, 34, 58, 34] ++ (strBody I ++
        ([34, 44, 34, 115, 117, 98, 34, 58, 34] ++ (strBody S ++ [34, 125]))) := by
  rw [marshalBytes]
  rw [renderFields, renderFields, renderFields, marshalBytes, marshalBytes]
  rw [show sortFields [("iss", strBytes I), ("sub", strBytes S)] =
      [("iss", strBytes I), ("sub", strBytes S)] from rfl]
  rw [List.map_cons, List.map_cons, List.map_nil]
  rw [show sepJoin [fieldChunk ("iss", strBytes I), fieldChunk ("sub", strBytes S)] =
      fieldChunk ("iss", strBytes I) ++ 44 :: fieldChunk ("sub", strBytes S) from rfl]
  simp only [fieldChunk, strBytes]
  rw [show strBody "iss" = [105, 115, 115] from rfl,
      show strBody "sub" = [115, 117, 98] from rfl]
  simp [List.cons_append, List.append_assoc]

theorem reduced_lt (I S : String) :
    ∀ b ∈ marshalBytes (Json.obj [("iss", .str I), ("sub", .str S)]), b < 256 := by
  rw [marshal_reduced]
  intro b hb
  simp only [List.mem_append, List.mem_cons, List.not_mem_nil, or_false] at hb
  rcases hb with h | h | h | h | h
  · omega
  · exact strBody_lt I b h
  · omega
  · exact strBody_lt S b h
  · omega

theorem deriveUserId_eq_pipeline (iss sub : String) :
    deriveUserId iss sub = String.mk (b64Enc (escapeSlash
      (marshalBytes (Json.obj [("iss", .str iss), ("sub", .str sub)])))) := rfl

theorem deriveUserId_sub_inj (iss s1 s2 : String) (hne : s1 ≠ s2) :
    deriveUserId iss s1 ≠ deriveUserId iss s2 := by
  intro heq
  apply hne
  rw [deriveUserId_eq_pipeline, deriveUserId_eq_pipeline] at heq
  have hchars := congrArg String.data heq
  simp only [String.data] at hchars
  have e1 := b64Dec_enc _ (escapeSlash_lt _ (reduced_lt iss s1))
  have e2 := b64Dec_enc _ (escapeSlash_lt _ (reduced_lt iss s2))
  rw [hchars, e2] at e1
  have hesc : escapeSlash (marshalBytes (Json.obj [("iss", .str iss), ("sub", .str s2)])) =
      escapeSlash (marshalBytes (Json.obj [("iss", .str iss), ("sub", .str s1)])) := by
    injection e1
  have hm := congrArg slashDec hesc
  rw [slashDec_esc, slashDec_esc] at hm
  rw [marshal_reduced, marshal_reduced] at hm
  have h1 := List.append_cancel_left hm
  have h2 := List.append_cancel_left h1
  have h3 := List.append_cancel_left h2
  exact (strBody_cancel [125] h3).symm

theorem deriveUserId_matches_spec (iss sub : String) :
    deriveUserId iss sub = deriveUserIdSpec iss sub := by
  rw [deriveUserId_eq_pipeline, deriveUserIdSpec, marshal_reduced]
  rw [show ("\x7b\"iss\":".data.map Char.toNat) = [123, 34, 105, 115, 115, 34, 58] from rfl,
      show (",\"sub\":".data.map Char.toNat) = [44, 34, 115, 117, 98, 34, 58] from rfl]
  simp [strBytes, List.append_assoc]

theorem genUserIdStr_of_strings (kvs : PIn) (iss sub : String)
    (hiss : List.lookup "iss" kvs = some (.str iss))
    (hsub : List.lookup "sub" kvs = some (.str sub)) :
    genUserIdStr kvs = deriveUserId iss sub := by
  rw [genUserIdStr, hiss, hsub]
  rfl

/-- C1 (counterexample): at the concrete `user_info` of concrete scenario 1,
`generateUserID` stamps the identifier built from field names `iss`/`sub`,
and that identifier differs from the one the claim's renamed-field
(`issuer`/`subject`) algorithm produces, so the claim's description of the
reduced object is false on this input. -/
theorem c1_field_names_not_renamed :
    generateUserIDJson defaultPluginInput =
      .ok (setKey defaultPluginInput "watts_userid" (.str defaultDerivedId)) ∧
    defaultDerivedId =
      deriveUserId "https://issuer.example.com" "123456789" ∧
    defaultDerivedId ≠
      deriveUserIdRenamed "https://issuer.example.com" "123456789" :=
  ⟨rfl, rfl, by decide⟩

/-- C1 (amended): for every plugin input whose `user_info` object carries
string fields `iss` and `sub`, `generateUserID` stamps `watts_userid` with
the identifier obtained by serializing the reduced object with its field
names kept as `iss` and `sub` (not renamed) to a compact key-order-stable
JSON encoding, escaping every forward slash, and base64url-encoding the
escaped bytes. -/
theorem c1_generateUserID_amended (p kvs : PIn) (iss sub : String)
    (hui : List.lookup "user_info" p = some (.obj kvs))
    (hiss : List.lookup "iss" kvs = some (.str iss))
    (hsub : List.lookup "sub" kvs = some (.str sub)) :
    generateUserIDJson p =
      .ok (setKey p "watts_userid" (.str (deriveUserIdSpec iss sub))) := by
  rw [generateUserIDJson, hui]
  show Except.ok (setKey p "watts_userid" (Json.str (genUserIdStr kvs))) = _
  rw [genUserIdStr_of_strings kvs iss sub hiss hsub, deriveUserId_matches_spec]

theorem c1_generateUserID_amended_witness :
    List.lookup "user_info" defaultPluginInput =
      some (.obj [("iss", .str "https://issuer.example.com"), ("sub", .str "123456789")]) ∧
    generateUserIDJson defaultPluginInput =
      .ok (setKey defaultPluginInput "watts_userid"
        (.str (deriveUserIdSpec "https://issuer.example.com" "123456789"))) :=
  ⟨rfl, c1_generateUserID_amended defaultPluginInput
    [("iss", .str "https://issuer.example.com"), ("sub", .str "123456789")]
    "https://issuer.example.com" "123456789" rfl rfl rfl⟩

/-- C7: `deriveUserId` is a pure function of the `(iss, sub)` pair (equal
inputs give byte-identical output), it is injective in `sub` for a fixed
`iss`, and on `iss = "https://issuer.example.com"`, `sub = "123456789"` it
yields the fixed base64url string recorded in `defaultDerivedId`. -/
theorem c7_deriveUserId_pure_injective :
    (∀ i1 s1 i2 s2 : String, i1 = i2 → s1 = s2 → deriveUserId i1 s1 = deriveUserId i2 s2) ∧
    (∀ iss s1 s2 : String, s1 ≠ s2 → deriveUserId iss s1 ≠ deriveUserId iss s2) ∧
    deriveUserId "https://issuer.example.com" "123456789" = defaultDerivedId :=
  ⟨fun _ _ _ _ h1 h2 => by rw [h1, h2], deriveUserId_sub_inj, rfl⟩

theorem c7_deriveUserId_pure_injective_witness :
    ("a" : String) ≠ "b" ∧ deriveUserId "i" "a" ≠ deriveUserId "i" "b" :=
  ⟨by decide, c7_deriveUserId_pure_injective.2.1 "i" "a" "b" (by decide)⟩

/-- C2: the merged document takes, for every key, the override's value
wholesale when the override contains the key, and the base's value
otherwise; `specifyPluginInput` applies this merge over the compiled-in
default document. -/
theorem c2_merge_override_wins :
    (∀ ov base : PIn, ∀ k : String,
      List.lookup k (mergoMerge ov base) =
        if (List.lookup k ov).isSome then List.lookup k ov else List.lookup k base) ∧
    (∀ ov : PIn, ∀ k : String,
      List.lookup k (specifyPluginInput (some ov)) =
        if (List.lookup k ov).isSome then List.lookup k ov
        else List.lookup k defaultPluginInput) :=
  ⟨fun ov base k => lookup_mergoMerge ov base k,
   fun ov k => lookup_mergoMerge ov defaultPluginInput k⟩

/-- C4: the `parameter` schema accepts the well-formed response of concrete
scenario 2 and rejects the `conf_params`-less response of concrete
scenario 3 with the failure path pointing exactly at `conf_params`. -/
theorem c4_parameter_schema_concrete :
    lookupScheme "parameter" = some parameterScheme ∧
    validateV parameterScheme goodParameterOutput = none ∧
    validateV parameterScheme missingConfParamsOutput = some ["conf_params"] :=
  ⟨rfl, rfl, rfl⟩

/-- C10: the compiled-in default document has no `watts_userid` key while
the plugin-input schema requires it to be a string, so the `default`
command with validation enabled always fails validation (at path
`watts_userid`) and exits with code 1. -/
theorem c10_default_validation_fails :
    List.lookup "watts_userid" defaultPluginInput = none ∧
    validatePluginInput defaultPluginInput = some ["watts_userid"] ∧
    runDefaultCmd true = .code 1 :=
  ⟨rfl, rfl, rfl⟩

/-- C3 (counterexample): for the unknown action `foo` the plugin is
invoked (the run's event list contains the invocation), no user-input error
is raised beforehand, and the run then dies in a Go runtime panic at the
nil-schema lookup — contradicting the claim that no invocation occurs. -/
theorem c3_unknown_action_invokes_plugin :
    (runTest .absent "foo" (.ok (some goodParameterOutput))).events = [.invoked] ∧
    (runTest .absent "foo" (.ok (some goodParameterOutput))).exit = .panicked ∧
    (runTest .absent "foo" (.ok (some goodParameterOutput))).result = some .panicNilScheme :=
  ⟨rfl, rfl, rfl⟩

/-- C3 (amended): for every action outside `parameter`/`request`/`revoke`,
the `test` command does not fail before the plugin runs: the plugin is
invoked, and when the plugin executes successfully the tool panics at the
nil-schema lookup after invocation, before any structural validation of the
output. -/
theorem c3_unknown_action_amended (action : String) (h : action ∉ supportedActions)
    (dec : Option Json) :
    (runTest .absent action (.ok dec)).events = [.invoked] ∧
    (runTest .absent action (.ok dec)).exit = .panicked ∧
    (runTest .absent action (.ok dec)).result = some .panicNilScheme := by
  simp only [supportedActions, List.mem_cons, List.not_mem_nil, or_false, not_or] at h
  obtain ⟨h1, h2, h3⟩ := h
  have hnone : lookupScheme action = none := by
    simp [lookupScheme, h1, h2, h3]
  have hd : doPluginTest action (.ok dec) = .panicNilScheme := by
    simp [doPluginTest, hnone]
  have hb : buildInput .absent action =
      .ok (setKey (setKey defaultPluginInput "action" (.str action)) "watts_userid"
        (.str defaultDerivedId)) := rfl
  simp [runTest, hb, hd]

theorem c3_unknown_action_amended_witness :
    ("foo" : String) ∉ supportedActions ∧
    ((runTest .absent "foo" (.ok (some Json.null))).events = [.invoked] ∧
     (runTest .absent "foo" (.ok (some Json.null))).exit = .panicked ∧
     (runTest .absent "foo" (.ok (some Json.null))).result = some .panicNilScheme) :=
  ⟨by decide, c3_unknown_action_amended "foo" (by decide) (some Json.null)⟩

/-- C6 (counterexample): a zero-exit run whose output does not decode as
JSON is not given a distinct decode-failure classification: it produces
exactly the same result as a run whose output is the decodable JSON value
`null`, namely a schema-validation failure. -/
theorem c6_decode_failure_not_distinct :
    doPluginTest "parameter" (.ok none) = doPluginTest "parameter" (.ok (some .null)) ∧
    doPluginTest "parameter" (.ok none) = .validationError [] :=
  ⟨rfl, rfl⟩

theorem doPluginTest_ok_ne_process (sch : Validator) (action : String)
    (hs : lookupScheme action = some sch) (dec : Option Json) :
    doPluginTest action (.ok dec) ≠ .processError := by
  intro hcontra
  simp only [doPluginTest, hs] at hcontra
  cases hv : validateV sch (dec.getD Json.null) <;> rw [hv] at hcontra <;> simp at hcontra

/-- C6 (amended): for every supported action the execution outcome has only
two distinguishable categories: non-zero exit or spawn failure is reported
as a process failure, and every zero-exit run proceeds to schema
validation, with undecodable output silently treated as decoded JSON
`null` (no distinct decode-failure case). -/
theorem c6_two_way_classification (action : String) (h : action ∈ supportedActions) :
    (∀ e : ExecOut, doPluginTest action e = .processError ↔ e = .execError) ∧
    doPluginTest action (.ok none) = doPluginTest action (.ok (some .null)) := by
  simp only [supportedActions, List.mem_cons, List.not_mem_nil, or_false] at h
  rcases h with rfl | rfl | rfl
  · exact ⟨fun e =>
      ⟨fun hc => by
        cases e with
        | execError => rfl
        | ok dec =>
            exact absurd hc (doPluginTest_ok_ne_process parameterScheme "parameter" rfl dec),
       fun hc => by subst hc; rfl⟩, rfl⟩
  · exact ⟨fun e =>
      ⟨fun hc => by
        cases e with
        | execError => rfl
        | ok dec =>
            exact absurd hc (doPluginTest_ok_ne_process requestScheme "request" rfl dec),
       fun hc => by subst hc; rfl⟩, rfl⟩
  · exact ⟨fun e =>
      ⟨fun hc => by
        cases e with
        | execError => rfl
        | ok dec =>
            exact absurd hc (doPluginTest_ok_ne_process revokeScheme "revoke" rfl dec),
       fun hc => by subst hc; rfl⟩, rfl⟩

theorem c6_two_way_classification_witness :
    ("parameter" : String) ∈ supportedActions ∧
    ((∀ e : ExecOut, doPluginTest "parameter" e = .processError ↔ e = .execError) ∧
     doPluginTest "parameter" (.ok none) = doPluginTest "parameter" (.ok (some .null))) :=
  ⟨by decide, c6_two_way_classification "parameter" (by decide)⟩

theorem lookup_setKey_self (p : PIn) (k : String) (v : Json) :
    List.lookup k (setKey p k v) = some v := lookup_assocSet_self p k v

theorem lookup_setKey_ne (p : PIn) (k k2 : String) (v : Json) (h : k2 ≠ k) :
    List.lookup k2 (setKey p k v) = List.lookup k2 p := lookup_assocSet_ne p k k2 v h

theorem runTest_completed_exit (action : String) (sch : Validator)
    (hs : lookupScheme action = some sch) (ov : OverrideArg) (e : ExecOut) (inp : PIn)
    (hb : buildInput ov action = .ok inp) :
    (runTest ov action e).exit = .code 0 := by
  have hd : doPluginTest action e ≠ .panicNilScheme := by
    cases e with
    | execError => simp [doPluginTest]
    | ok dec =>
        simp only [doPluginTest, hs]
        cases hv : validateV sch (dec.getD Json.null) <;> simp [hv]
  cases hres : doPluginTest action e with
  | panicNilScheme => exact absurd hres hd
  | processError => simp [runTest, hb, hres]
  | validationError p => simp [runTest, hb, hres]
  | passed => simp [runTest, hb, hres]

/-- C8 (counterexample): a `test` run whose plugin output fails schema
validation reports the validation error in its output but terminates with
exit code 0 — contradicting the claim that a schema-validation failure
gets a distinct non-zero exit code. -/
theorem c8_validation_failure_exits_zero :
    (runTest .absent "parameter" (.ok (some missingConfParamsOutput))).result =
      some (.validationError ["conf_params"]) ∧
    (runTest .absent "parameter" (.ok (some missingConfParamsOutput))).exit = .code 0 :=
  ⟨rfl, rfl⟩

/-- C8 (amended): for every supported action, every completed `test` run
exits with code 0 regardless of the plugin outcome (success, execution
failure and schema-validation failure are distinguishable only in the
printed output), while user-input errors — a malformed override file or an
input document failing validation — share the single exit code 1; the four
claimed failure categories are not distinguished by exit code. -/
theorem c8_exit_codes_amended (action : String) (h : action ∈ supportedActions)
    (e : ExecOut) :
    (runTest .absent action e).exit = .code 0 ∧
    (runTest .malformed action e).exit = .code 1 ∧
    (runTest (.parsed c8BadOverride) action e).exit = .code 1 := by
  simp only [supportedActions, List.mem_cons, List.not_mem_nil, or_false] at h
  rcases h with rfl | rfl | rfl
  · exact ⟨runTest_completed_exit "parameter" parameterScheme rfl .absent e _ rfl, rfl, rfl⟩
  · exact ⟨runTest_completed_exit "request" requestScheme rfl .absent e _ rfl, rfl, rfl⟩
  · exact ⟨runTest_completed_exit "revoke" revokeScheme rfl .absent e _ rfl, rfl, rfl⟩

theorem c8_exit_codes_amended_witness :
    ("parameter" : String) ∈ supportedActions ∧
    ((runTest .absent "parameter" (.ok (some goodParameterOutput))).exit = .code 0 ∧
     (runTest .malformed "parameter" (.ok (some goodParameterOutput))).exit = .code 1 ∧
     (runTest (.parsed c8BadOverride) "parameter"
        (.ok (some goodParameterOutput))).exit = .code 1) :=
  ⟨by decide, c8_exit_codes_amended "parameter" (by decide) (.ok (some goodParameterOutput))⟩

theorem buildFrom_ok_shape (merged : PIn) (action : String) (inp : PIn)
    (hok : buildInput.buildFrom merged action = .ok inp) :
    ∃ kvs : PIn, List.lookup "user_info" inp = some (.obj kvs) ∧
      List.lookup "watts_userid" inp = some (.str (genUserIdStr kvs)) := by
  unfold buildInput.buildFrom at hok
  cases hg : generateUserIDJson (setKey merged "action" (.str action)) with
  | error err => rw [hg] at hok; simp at hok
  | ok stamped =>
      rw [hg] at hok
      have hok2 : (match validatePluginInput stamped with
          | some _ => Except.error (ExitStatus.code 1)
          | none => Except.ok stamped) = Except.ok inp := hok
      cases hv : validatePluginInput stamped with
      | some p => rw [hv] at hok2; simp at hok2
      | none =>
          rw [hv] at hok2
          have hinp : stamped = inp := by injection hok2
          subst hinp
          unfold generateUserIDJson at hg
          cases hui : List.lookup "user_info" (setKey merged "action" (.str action)) with
          | none => rw [hui] at hg; simp at hg
          | some v =>
              rw [hui] at hg
              cases v with
              | null => simp at hg
              | bool b => simp at hg
              | num i => simp at hg
              | str s => simp at hg
              | arr xs => simp at hg
              | obj kvs =>
                  have hg2 : (Except.ok
                      (setKey (setKey merged "action" (.str action)) "watts_userid"
                        (.str (genUserIdStr kvs))) : Except ExitStatus PIn) =
                      Except.ok stamped := hg
                  have hst : setKey (setKey merged "action" (.str action)) "watts_userid"
                      (.str (genUserIdStr kvs)) = stamped := by injection hg2
                  refine ⟨kvs, ?_, ?_⟩
                  · rw [← hst,
                      lookup_setKey_ne _ _ _ _ (by decide : "user_info" ≠ "watts_userid")]
                    exact hui
                  · rw [← hst]
                    exact lookup_setKey_self _ _ _

theorem buildInput_ok_shape (ov : OverrideArg) (action : String) (inp : PIn)
    (hok : buildInput ov action = .ok inp) :
    ∃ kvs : PIn, List.lookup "user_info" inp = some (.obj kvs) ∧
      List.lookup "watts_userid" inp = some (.str (genUserIdStr kvs)) := by
  cases ov with
  | malformed => simp [buildInput] at hok
  | absent => exact buildFrom_ok_shape (specifyPluginInput none) action inp hok
  | parsed doc => exact buildFrom_ok_shape (specifyPluginInput (some doc)) action inp hok

/-- C5: on every path that reaches the plugin, the canonical input's
`watts_userid` is exactly the identifier recomputed from the input's own
`user_info` object — never a caller-supplied value; in particular an
override's `watts_userid` is overwritten before invocation. -/
theorem c5_watts_userid_recomputed (ov : OverrideArg) (action : String) (e : ExecOut)
    (inp : PIn) (h : (runTest ov action e).sentInput = some inp) :
    ∃ kvs : PIn, List.lookup "user_info" inp = some (.obj kvs) ∧
      List.lookup "watts_userid" inp = some (.str (genUserIdStr kvs)) := by
  unfold runTest at h
  cases hb : buildInput ov action with
  | error err => rw [hb] at h; simp at h
  | ok inp2 =>
      rw [hb] at h
      simp only [Option.some.injEq] at h
      subst h
      exact buildInput_ok_shape ov action inp2 hb

theorem c5_watts_userid_recomputed_witness :
    (runTest (.parsed c5Override) "parameter" (.ok none)).sentInput = some c5Sent ∧
    (∃ kvs : PIn, List.lookup "user_info" c5Sent = some (.obj kvs) ∧
      List.lookup "watts_userid" c5Sent = some (.str (genUserIdStr kvs))) ∧
    List.lookup "watts_userid" c5Override = some (.str "evil") ∧
    List.lookup "watts_userid" c5Sent ≠ some (.str "evil") :=
  ⟨rfl, c5_watts_userid_recomputed (.parsed c5Override) "parameter" (.ok none) c5Sent rfl,
   rfl, by
     intro hc
     rw [show List.lookup "watts_userid" c5Sent =
       some (Json.str "eyJpc3MiOiJ1cm46ZXhhbXBsZSIsInN1YiI6ImFscGhhIn0") from rfl] at hc
     have hs := Option.some.inj hc
     injection hs with hstr
     exact absurd hstr (by decide)⟩

/-- C9: `generateUserID` assigns the derived identifier to the package-level
variable `defaultWattsUserId` and stores a pointer to that variable in the
map, so a stamped input aliases the global: after a second input B is
stamped, the `watts_userid` observed through the earlier stamped input A is
the value derived for B, and whenever that value differs from A's, the
field of the previously stamped input has changed. -/
theorem c9_stamping_aliases_global (s0 s1 s2 : TState) (A B A2 B2 : HIn)
    (hA : generateUserIDAlias s0 A = some (s1, A2))
    (hB : generateUserIDAlias s1 B = some (s2, B2)) :
    observeWatts s2 A2 = some s2.wattsGlobal ∧
    observeWatts s1 A2 = some s1.wattsGlobal ∧
    (∃ r kvs, List.lookup "user_info" B = some r ∧ readRef s1 r = .obj kvs ∧
      s2.wattsGlobal = .str (genUserIdStr kvs)) ∧
    (s2.wattsGlobal ≠ s1.wattsGlobal → observeWatts s2 A2 ≠ observeWatts s1 A2) := by
  unfold generateUserIDAlias at hA hB
  cases hra : List.lookup "user_info" A with
  | none => rw [hra] at hA; simp at hA
  | some rA =>
      rw [hra] at hA
      have hA3 : (match readRef s0 rA with
          | Json.obj kvs =>
              some ((⟨.str (genUserIdStr kvs)⟩ : TState), setKeyH A "watts_userid" .wattsPtr)
          | _ => none) = some (s1, A2) := hA
      cases hva : readRef s0 rA with
      | null => rw [hva] at hA3; simp at hA3
      | bool b => rw [hva] at hA3; simp at hA3
      | num i => rw [hva] at hA3; simp at hA3
      | str s => rw [hva] at hA3; simp at hA3
      | arr xs => rw [hva] at hA3; simp at hA3
      | obj kvsA =>
          rw [hva] at hA3
          have hA4 : some ((⟨.str (genUserIdStr kvsA)⟩ : TState),
              setKeyH A "watts_userid" JRef.wattsPtr) = some (s1, A2) := hA3
          have hA2 : setKeyH A "watts_userid" .wattsPtr = A2 :=
            congrArg Prod.snd (Option.some.inj hA4)
          cases hrb : List.lookup "user_info" B with
          | none => rw [hrb] at hB; simp at hB
          | some rB =>
              rw [hrb] at hB
              have hB3 : (match readRef s1 rB with
                  | Json.obj kvs =>
                      some ((⟨.str (genUserIdStr kvs)⟩ : TState),
                        setKeyH B "watts_userid" .wattsPtr)
                  | _ => none) = some (s2, B2) := hB
              cases hvb : readRef s1 rB with
              | null => rw [hvb] at hB3; simp at hB3
              | bool b => rw [hvb] at hB3; simp at hB3
              | num i => rw [hvb] at hB3; simp at hB3
              | str s => rw [hvb] at hB3; simp at hB3
              | arr xs => rw [hvb] at hB3; simp at hB3
              | obj kvsB =>
                  rw [hvb] at hB3
                  have hB4 : some ((⟨.str (genUserIdStr kvsB)⟩ : TState),
                      setKeyH B "watts_userid" JRef.wattsPtr) = some (s2, B2) := hB3
                  have hs2 : (⟨.str (genUserIdStr kvsB)⟩ : TState) = s2 :=
                    congrArg Prod.fst (Option.some.inj hB4)
                  have hobs : ∀ s : TState, observeWatts s A2 = some s.wattsGlobal := by
                    intro s
                    rw [observeWatts, ← hA2]
                    rw [show setKeyH A "watts_userid" JRef.wattsPtr =
                        assocSet A "watts_userid" JRef.wattsPtr from rfl,
                      lookup_assocSet_self]
                    rfl
                  refine ⟨hobs s2, hobs s1, ⟨rB, kvsB, rfl, hvb, by rw [← hs2]⟩, ?_⟩
                  intro hne hcontra
                  rw [hobs s2, hobs s1] at hcontra
                  exact hne (Option.some.inj hcontra)

theorem c9_stamping_aliases_global_witness :
    generateUserIDAlias ⟨Json.null⟩ c9InputA =
      some (⟨.str "eyJpc3MiOiJpIiwic3ViIjoiYSJ9"⟩, c9StampedA) ∧
    generateUserIDAlias ⟨.str "eyJpc3MiOiJpIiwic3ViIjoiYSJ9"⟩ c9InputB =
      some (⟨.str "eyJpc3MiOiJpIiwic3ViIjoiYiJ9"⟩, c9StampedB) ∧
    (observeWatts ⟨.str "eyJpc3MiOiJpIiwic3ViIjoiYiJ9"⟩ c9StampedA =
      some (TState.mk (.str "eyJpc3MiOiJpIiwic3ViIjoiYiJ9")).wattsGlobal ∧
     observeWatts ⟨.str "eyJpc3MiOiJpIiwic3ViIjoiYSJ9"⟩ c9StampedA =
      some (TState.mk (.str "eyJpc3MiOiJpIiwic3ViIjoiYSJ9")).wattsGlobal ∧
     (∃ r kvs, List.lookup "user_info" c9InputB = some r ∧
        readRef ⟨.str "eyJpc3MiOiJpIiwic3ViIjoiYSJ9"⟩ r = .obj kvs ∧
        (TState.mk (.str "eyJpc3MiOiJpIiwic3ViIjoiYiJ9")).wattsGlobal =
          .str (genUserIdStr kvs)) ∧
     ((TState.mk (.str "eyJpc3MiOiJpIiwic3ViIjoiYiJ9")).wattsGlobal ≠
        (TState.mk (.str "eyJpc3MiOiJpIiwic3ViIjoiYSJ9")).wattsGlobal →
      observeWatts ⟨.str "eyJpc3MiOiJpIiwic3ViIjoiYiJ9"⟩ c9StampedA ≠
        observeWatts ⟨.str "eyJpc3MiOiJpIiwic3ViIjoiYSJ9"⟩ c9StampedA)) :=
  ⟨rfl, rfl, c9_stamping_aliases_global ⟨Json.null⟩
    ⟨.str "eyJpc3MiOiJpIiwic3ViIjoiYSJ9"⟩ ⟨.str "eyJpc3MiOiJpIiwic3ViIjoiYiJ9"⟩
    c9InputA c9InputB c9StampedA c9StampedB rfl rfl⟩
